import Mathlib

set_option maxRecDepth 100000

/-!
Verification of the interview-brief pipeline core: the JSON response
coercer (`src/prep/llm.py`), the prompt builder and input validation
(`src/prep/core.py`, `src/cli.py`) and the Markdown renderer
(`src/prep/render.py`).  Python strings are modelled as Lean `String`
(lists of unicode scalars); `json.loads` is modelled by an executable
recursive-descent parser over the strict JSON grammar; the three
regular-expression searches of `extract_json_block` are modelled by
executable scanners that reproduce the leftmost-first / lazy / greedy
matching semantics of the concrete patterns in the source.
-/

namespace Brief

/-- The ASCII whitespace class recognised by Python's `\s` regex class and
`str.strip()` (space, tab, newline, carriage return, vertical tab, form
feed).  Exotic unicode whitespace is outside the model. -/
def isWsPy (c : Char) : Bool :=
  c = ' ' || c = '\t' || c = '\n' || c = '\r' || c = '\x0b' || c = '\x0c'

/-- Drop leading Python whitespace. -/
def dropWsPy (cs : List Char) : List Char := cs.dropWhile isWsPy

/-- Drop trailing Python whitespace. -/
def trimRightWs (cs : List Char) : List Char := (dropWsPy cs.reverse).reverse

/-- Python `str.strip()` on the character-list level. -/
def pyStripL (cs : List Char) : List Char := trimRightWs (dropWsPy cs)

/-- Python `str.strip()`. -/
def pyStrip (s : String) : String := String.mk (pyStripL s.data)

/-- JSON whitespace skipped by `json.loads` (space, tab, newline, CR). -/
def isWsJson (c : Char) : Bool :=
  c = ' ' || c = '\t' || c = '\n' || c = '\r'

/-- Drop leading JSON whitespace. -/
def dropWsJson (cs : List Char) : List Char := cs.dropWhile isWsJson

mutual
/-- The values produced by `json.loads`: null, booleans, numbers (kept as
their source lexeme, since no claim inspects numeric magnitude), strings,
arrays and objects.  Objects are association lists in document order,
matching Python's insertion-ordered `dict` for duplicate-free keys. -/
inductive JValue where
  | null : JValue
  | boolean : Bool → JValue
  | num : String → JValue
  | str : String → JValue
  | arr : JArr → JValue
  | obj : JObj → JValue
deriving DecidableEq
/-- A JSON array, as a bespoke list so that all recursions stay structural. -/
inductive JArr where
  | nil : JArr
  | cons : JValue → JArr → JArr
deriving DecidableEq
/-- A JSON object: keys with values, in document order. -/
inductive JObj where
  | nil : JObj
  | cons : String → JValue → JObj → JObj
deriving DecidableEq
end

/-- Value of a hexadecimal digit, as accepted inside a `\u` escape. -/
def hexVal (c : Char) : Option Nat :=
  if '0' ≤ c ∧ c ≤ '9' then some (c.toNat - '0'.toNat)
  else if 'a' ≤ c ∧ c ≤ 'f' then some (c.toNat - 'a'.toNat + 10)
  else if 'A' ≤ c ∧ c ≤ 'F' then some (c.toNat - 'A'.toNat + 10)
  else none

/-- The single-character escapes of the JSON grammar. -/
def escUnmap (c : Char) : Option Char :=
  if c = '"' then some '"'
  else if c = '\\' then some '\\'
  else if c = '/' then some '/'
  else if c = 'b' then some '\x08'
  else if c = 'f' then some '\x0c'
  else if c = 'n' then some '\n'
  else if c = 'r' then some '\r'
  else if c = 't' then some '\t'
  else none

/-- Body of a JSON string literal, after the opening quote: returns the
decoded characters and the input remaining after the closing quote.
Mirrors Python's strict `scanstring`: raw control characters below 0x20
are rejected, escapes are decoded, `\u` takes four hex digits. -/
def scanStr : List Char → Option (List Char × List Char)
  | [] => none
  | c :: rest =>
    if c = '"' then some ([], rest)
    else if c = '\\' then
      match rest with
      | [] => none
      | e :: rest2 =>
        if e = 'u' then
          match rest2 with
          | h1 :: h2 :: h3 :: h4 :: rest3 =>
            match hexVal h1, hexVal h2, hexVal h3, hexVal h4 with
            | some a, some b, some c2, some d =>
              (scanStr rest3).map
                (fun p => (Char.ofNat (((a * 16 + b) * 16 + c2) * 16 + d) :: p.1, p.2))
            | _, _, _, _ => none
          | _ => none
        else
          match escUnmap e with
          | some c2 => (scanStr rest2).map (fun p => (c2 :: p.1, p.2))
          | none => none
    else if c.toNat < 32 then none
    else (scanStr rest).map (fun p => (c :: p.1, p.2))

def isDigit (c : Char) : Bool := '0' ≤ c && c ≤ '9'

/-- The digits `1`-`9`. -/
def isDigit19 (c : Char) : Bool := '1' ≤ c && c ≤ '9'

/-- Greedy run of decimal digits. -/
def takeDigits (cs : List Char) : List Char × List Char :=
  (cs.takeWhile isDigit, cs.dropWhile isDigit)

/-- The integer part of a JSON number: `0`, or a nonzero digit followed by
digits (leading zeros rejected, as in Python's number regex). -/
def scanInt : List Char → Option (List Char × List Char)
  | [] => none
  | c :: rest =>
    if c = '0' then some ([c], rest)
    else if isDigit19 c then
      let p := takeDigits rest
      some (c :: p.1, p.2)
    else none

/-- Optional fraction part `.[0-9]+`. -/
def scanFrac (cs : List Char) : List Char × List Char :=
  match cs with
  | '.' :: rest =>
    match takeDigits rest with
    | ([], _) => ([], cs)
    | (ds, rest2) => ('.' :: ds, rest2)
  | _ => ([], cs)

/-- Optional exponent part `[eE][+-]?[0-9]+`. -/
def scanExp (cs : List Char) : List Char × List Char :=
  match cs with
  | e :: rest =>
    if e = 'e' || e = 'E' then
      match rest with
      | s :: rest2 =>
        if s = '+' || s = '-' then
          match takeDigits rest2 with
          | ([], _) => ([], cs)
          | (ds, rest3) => (e :: s :: ds, rest3)
        else
          match takeDigits rest with
          | ([], _) => ([], cs)
          | (ds, rest3) => (e :: ds, rest3)
      | [] => ([], cs)
    else ([], cs)
  | [] => ([], cs)

/-- A JSON number lexeme `-?(0|[1-9][0-9]*)(\.[0-9]+)?([eE][+-]?[0-9]+)?`,
returned together with the remaining input. -/
def scanNum (cs : List Char) : Option (List Char × List Char) :=
  match cs with
  | '-' :: rest =>
    match scanInt rest with
    | some (ip, rest2) =>
      let f := scanFrac rest2
      let e := scanExp f.2
      some ('-' :: ip ++ f.1 ++ e.1, e.2)
    | none => none
  | _ =>
    match scanInt cs with
    | some (ip, rest2) =>
      let f := scanFrac rest2
      let e := scanExp f.2
      some (ip ++ f.1 ++ e.1, e.2)
    | none => none

/-- Literal-prefix test on character lists. -/
def litPre : List Char → List Char → Bool
  | [], _ => true
  | _ :: _, [] => false
  | p :: ps, c :: cs => p = c && litPre ps cs

/-- Drop `n` characters. -/
def dropN (n : Nat) (cs : List Char) : List Char := cs.drop n

mutual
/-- One JSON value, fuel-bounded recursive descent mirroring Python's
`json.loads` scanner: leading whitespace is skipped, then objects, arrays,
strings, the literals `null` / `true` / `false` / `NaN` / `Infinity` /
`-Infinity`, and numbers are recognised. -/
def jValue : Nat → List Char → Option (JValue × List Char)
  | 0, _ => none
  | fuel + 1, cs =>
    match dropWsJson cs with
    | [] => none
    | c :: rest =>
      if c = '\x7b' then
        match dropWsJson rest with
        | '\x7d' :: rest2 => some (.obj .nil, rest2)
        | rest2 =>
          match jMembers fuel rest2 with
          | some (o, rest3) => some (.obj o, rest3)
          | none => none
      else if c = '[' then
        match dropWsJson rest with
        | ']' :: rest2 => some (.arr .nil, rest2)
        | rest2 =>
          match jElems fuel rest2 with
          | some (a, rest3) => some (.arr a, rest3)
          | none => none
      else if c = '"' then
        match scanStr rest with
        | some (s, rest2) => some (.str (String.mk s), rest2)
        | none => none
      else if litPre ('n' :: 'u' :: 'l' :: 'l' :: []) (c :: rest) then
        some (.null, dropN 3 rest)
      else if litPre ('t' :: 'r' :: 'u' :: 'e' :: []) (c :: rest) then
        some (.boolean true, dropN 3 rest)
      else if litPre ('f' :: 'a' :: 'l' :: 's' :: 'e' :: []) (c :: rest) then
        some (.boolean false, dropN 4 rest)
      else if litPre ('N' :: 'a' :: 'N' :: []) (c :: rest) then
        some (.num (String.mk ('N' :: 'a' :: 'N' :: [])), dropN 2 rest)
      else if litPre ('I' :: 'n' :: 'f' :: 'i' :: 'n' :: 'i' :: 't' :: 'y' :: []) (c :: rest) then
        some (.num (String.mk ('I' :: 'n' :: 'f' :: 'i' :: 'n' :: 'i' :: 't' :: 'y' :: [])), dropN 7 rest)
      else if litPre ('-' :: 'I' :: 'n' :: 'f' :: 'i' :: 'n' :: 'i' :: 't' :: 'y' :: []) (c :: rest) then
        some (.num (String.mk ('-' :: 'I' :: 'n' :: 'f' :: 'i' :: 'n' :: 'i' :: 't' :: 'y' :: [])), dropN 8 rest)
      else
        match scanNum (c :: rest) with
        | some (lex, rest2) => some (.num (String.mk lex), rest2)
        | none => none

/-- Object members after the opening brace (first non-whitespace character
onward): `"key" : value` separated by commas, terminated by `}`. -/
def jMembers : Nat → List Char → Option (JObj × List Char)
  | 0, _ => none
  | fuel + 1, cs =>
    match cs with
    | '"' :: rest =>
      match scanStr rest with
      | some (k, rest2) =>
        match dropWsJson rest2 with
        | ':' :: rest3 =>
          match jValue fuel rest3 with
          | some (v, rest4) =>
            match dropWsJson rest4 with
            | ',' :: rest5 =>
              match jMembers fuel (dropWsJson rest5) with
              | some (o, rest6) => some (.cons (String.mk k) v o, rest6)
              | none => none
            | '\x7d' :: rest5 => some (.cons (String.mk k) v .nil, rest5)
            | _ => none
          | none => none
        | _ => none
      | none => none
    | _ => none

/-- Array elements after the opening bracket: values separated by commas,
terminated by `]`. -/
def jElems : Nat → List Char → Option (JArr × List Char)
  | 0, _ => none
  | fuel + 1, cs =>
    match jValue fuel cs with
    | some (v, rest) =>
      match dropWsJson rest with
      | ',' :: rest2 =>
        match jElems fuel rest2 with
        | some (a, rest3) => some (.cons v a, rest3)
        | none => none
      | ']' :: rest2 => some (.cons v .nil, rest2)
      | _ => none
    | none => none
end

/-- `json.loads`: parse one value, demand only whitespace afterwards. -/
def jloads (s : String) : Option JValue :=
  match jValue (s.data.length + 1) s.data with
  | some (v, rest) =>
    match dropWsJson rest with
    | [] => some v
    | _ => none
  | none => none

/-! ### JSON serialization

A standard JSON serializer (compact form, `", "` and `": "` separators as
in `json.dumps` defaults, `ensure_ascii` off so characters above 0x1f pass
through verbatim).  It is the serializer of the round-trip claims; the
repository itself only ever parses. -/

/-- Lower-case hexadecimal digit for values below 16. -/
def hexDig (n : Nat) : Char :=
  if n < 10 then Char.ofNat ('0'.toNat + n) else Char.ofNat ('a'.toNat + n - 10)

/-- Escape one character for a JSON string literal: the two mandatory
escapes, short escapes for the common control characters, `\u00XX` for the
remaining control characters, everything else verbatim. -/
def escChar (c : Char) : List Char :=
  if c = '"' then '\\' :: '"' :: []
  else if c = '\\' then '\\' :: '\\' :: []
  else if c = '\n' then '\\' :: 'n' :: []
  else if c = '\t' then '\\' :: 't' :: []
  else if c = '\r' then '\\' :: 'r' :: []
  else if c = '\x08' then '\\' :: 'b' :: []
  else if c = '\x0c' then '\\' :: 'f' :: []
  else if c.toNat < 32 then
    '\\' :: 'u' :: '0' :: '0' :: hexDig (c.toNat / 16) :: hexDig (c.toNat % 16) :: []
  else c :: []

/-- Escape a whole string body. -/
def escStr : List Char → List Char
  | [] => []
  | c :: cs => escChar c ++ escStr cs

/-- A JSON string literal with its quotes. -/
def jstr (s : String) : List Char := '"' :: escStr s.data ++ ['"']

mutual
/-- Serialize a JSON value. -/
def dumpV : JValue → List Char
  | .null => 'n' :: 'u' :: 'l' :: 'l' :: []
  | .boolean true => 't' :: 'r' :: 'u' :: 'e' :: []
  | .boolean false => 'f' :: 'a' :: 'l' :: 's' :: 'e' :: []
  | .num lex => lex.data
  | .str s => jstr s
  | .arr a => '[' :: dumpA a ++ [']']
  | .obj o => '\x7b' :: dumpO o ++ ['\x7d']
/-- Serialize array elements, `", "`-separated. -/
def dumpA : JArr → List Char
  | .nil => []
  | .cons v .nil => dumpV v
  | .cons v (JArr.cons w a) => dumpV v ++ ',' :: ' ' :: dumpA (JArr.cons w a)
/-- Serialize object members, `", "`-separated, `": "` after each key. -/
def dumpO : JObj → List Char
  | .nil => []
  | .cons k v .nil => jstr k ++ ':' :: ' ' :: dumpV v
  | .cons k v (JObj.cons k2 v2 o) =>
      jstr k ++ ':' :: ' ' :: dumpV v ++ ',' :: ' ' :: dumpO (JObj.cons k2 v2 o)
end

/-- Serialize to a string. -/
def jdumps (v : JValue) : String := String.mk (dumpV v)

/-! ### The extraction cascade of `extract_json_block` (llm.py lines 39-49)

Three searches in fixed order, each modelling one `re.search` call:

* pattern 1, `r"` ```json\s*(\{.*?\})\s*``` `"` with `re.S | re.I`;
* pattern 2, the same without the `json` label and without `re.I`;
* pattern 3, `r"\{[\s\S]*\}\s*$"`.

The scanners reproduce leftmost-first searching, greedy `\s*` (which,
being followed by a non-whitespace literal, deterministically skips the
maximal whitespace run) and the lazy `\{.*?\}` body (which stops at the
first closing brace whose continuation matches `\s*` followed by the
closing fence). -/

/-- Three backticks, the fence delimiter. -/
def tick3 : List Char := '\x60' :: '\x60' :: '\x60' :: []

/-- Does `\s*` followed by a closing fence match here? -/
def afterCloseOk (cs : List Char) : Bool := litPre tick3 (dropWsPy cs)

/-- The lazy `.*?\}` scan: characters after the opening brace; returns the
interior up to and including the first closing brace that is followed by
`\s*` and a closing fence. -/
def lazyBody : List Char → Option (List Char)
  | [] => none
  | c :: rest =>
    if c = '\x7d' && afterCloseOk rest then some (c :: [])
    else
      match lazyBody rest with
      | some g => some (c :: g)
      | none => none

/-- The fence label. -/
def jsonWord : List Char := 'j' :: 's' :: 'o' :: 'n' :: []

/-- Case-insensitive literal prefix (the `re.I` flag on the `json`
label): each pattern character must equal the lower-cased input
character. -/
def litPreCI : List Char → List Char → Bool
  | [], _ => true
  | _ :: _, [] => false
  | p :: ps, c :: cs => p = c.toLower && litPreCI ps cs

/-- Match the opening of a labeled fence at this position: three backticks
then `json` case-insensitively. -/
def labeledOpenAt (cs : List Char) : Option (List Char) :=
  if litPre tick3 cs && litPreCI jsonWord (cs.drop 3) then some (cs.drop 7) else none

/-- Try the labeled-fence pattern anchored at this position. -/
def tryLabeledAt (cs : List Char) : Option (List Char) :=
  match labeledOpenAt cs with
  | some afterOpen =>
    match dropWsPy afterOpen with
    | '\x7b' :: rest =>
      match lazyBody rest with
      | some g => some ('\x7b' :: g)
      | none => none
    | _ => none
  | none => none

/-- Try the unlabeled-fence pattern anchored at this position. -/
def tryUnlabeledAt (cs : List Char) : Option (List Char) :=
  match cs with
  | '\x60' :: '\x60' :: '\x60' :: rest =>
    match dropWsPy rest with
    | '\x7b' :: rest2 =>
      match lazyBody rest2 with
      | some g => some ('\x7b' :: g)
      | none => none
    | _ => none
  | _ => none

/-- `re.search` for the labeled-fence pattern: leftmost match wins. -/
def searchLabeled : List Char → Option (List Char)
  | [] => none
  | c :: rest =>
    match tryLabeledAt (c :: rest) with
    | some g => some g
    | none => searchLabeled rest

/-- `re.search` for the unlabeled-fence pattern: leftmost match wins. -/
def searchUnlabeled : List Char → Option (List Char)
  | [] => none
  | c :: rest =>
    match tryUnlabeledAt (c :: rest) with
    | some g => some g
    | none => searchUnlabeled rest

/-- `re.search(r"\{[\s\S]*\}\s*$", text)`: from the first opening brace,
greedily to the last closing brace that is followed only by whitespace.
Returns the match with its trailing `\s*$` already stripped (the code
applies `.strip()` to `group(0)`). -/
def searchTrailing (cs : List Char) : Option (List Char) :=
  match cs.dropWhile (fun c => !(c = '\x7b')) with
  | [] => none
  | b :: more =>
    let t := trimRightWs (b :: more)
    match t.getLast? with
    | some c => if c = '\x7d' then some t else none
    | none => none

/-- `extract_json_block` (llm.py lines 39-49): the three searches in fixed
order, else the stripped input itself. -/
def extract_json_block (text : String) : String :=
  match searchLabeled text.data with
  | some g => pyStrip (String.mk g)
  | none =>
    match searchUnlabeled text.data with
    | some g => pyStrip (String.mk g)
    | none =>
      match searchTrailing text.data with
      | some g => pyStrip (String.mk g)
      | none => pyStrip text

/-! ### The response coercer (llm.py lines 31-36, cli.py lines 81-82) -/

/-- The failures of the coercion stage: `malformed` is the
`json.JSONDecodeError` escaping `call_openai`, carrying the document it
was parsing (the spec's `MalformedResponseError` raw-text payload);
`notMapping` is the `ValueError` raised by `generate_prep_brief` when the
parsed value is not a dict. -/
inductive CoerceError where
  | malformed : String → CoerceError
  | notMapping : CoerceError
deriving DecidableEq

/-- The JSON-coercion tail of `call_openai` (llm.py lines 31-36): parse the
whole text; on failure extract a candidate block and parse that; a second
failure raises with the extracted document. -/
def coerce (text : String) : Except CoerceError JValue :=
  match jloads text with
  | some v => .ok v
  | none =>
    let cleaned := extract_json_block text
    match jloads cleaned with
    | some v => .ok v
    | none => .error (.malformed cleaned)

/-- Is the value a JSON object (a Python dict)? -/
def isObjV : JValue → Bool
  | .obj _ => true
  | _ => false

/-- Coercion as seen by the CLI (cli.py lines 79-82): the parsed value
must be a mapping, otherwise `ValueError` is raised. -/
def coerceRecord (text : String) : Except CoerceError JValue :=
  match coerce text with
  | .ok v => if isObjV v then .ok v else .error .notMapping
  | .error e => .error e

/-! ### The prompt builder (core.py lines 53-83) -/

/-- The `(system, user)` prompt dict returned by `build_prompt`. -/
structure PromptPair where
  system : String
  user : String
deriving DecidableEq

/-- The fixed instruction template of `build_prompt` (core.py lines 54-78),
transcribed verbatim. -/
def systemPromptText : String :=
  ("You are an elite Interview Prep Assistant. You receive a Job Description (JD) and a Candidate CV. Your task: produce a concise, actionable prep brief tailored to the candidate.\n\nReturn JSON as in this example:\n\x60\x60\x60json\n\x7b\n  \"top_required_skills\": [\"Skill1\", \"Skill2\"],\n  \"strong_overlaps\": [\"Overlap1\", \"Overlap2\"],\n  \"gaps_and_risks\": [\"Gap1\", \"Risk1\"],\n  \"likely_tech_questions\": [\"Tech Question1\", \"Tech Question2\"],\n  \"behavioral_questions\": [\"Behavioral Question1\", \"Behavioral Question2\"],\n  \"talking_points\": [\"Point1\", \"Point2\"],\n  \"quick_upskilling_plan\": [\"Task1\", \"Task2\"],\n  \"role_summary\": \"Concise summary of the role.\"\n\x7d\n\x60\x60\x60\n\nGuidelines:\n- Extract top required skills from the JD.\n- Identify strong overlaps between the CV and JD.\n- List gaps and risks based on the CV vs JD.\n- Generate likely technical and behavioral questions.\n- Suggest high-impact talking points for the interview.\n- Propose a quick upskilling plan (tasks ≤2h).\n- Ensure the JSON is valid and parsable.\n")

/-- `build_prompt(jd_text, cv_text)` (core.py lines 53-83): a fixed
template parameterized only by the two texts. -/
def build_prompt (jd_text cv_text : String) : PromptPair :=
  { system := systemPromptText
    user := ("Job Description:\n") ++ jd_text ++ ("\n\nCandidate CV:\n") ++ cv_text
      ++ ("\n\nNow, produce the prep brief as specified in JSON format.") }

/-! ### Input validation in `generate_prep_brief` (cli.py lines 61-71) -/

/-- The `ValueError`s of the validation stage (the spec's
`ValidationError`). -/
inductive CliError where
  | jdTooShort : CliError
  | cvTooShort : CliError
deriving DecidableEq

/-- The JD literal-text path of `generate_prep_brief` (cli.py lines
61-67): when JD text is given directly (no URL), it is used exactly as
passed — no stripping — and rejected when empty or shorter than 100. -/
def checkJdText (jd : String) : Except CliError String :=
  if jd = ("") ∨ jd.length < 100 then .error .jdTooShort else .ok jd

/-- The CV path: `read_cv_text` strips the file contents (core.py line
50), then `generate_prep_brief` rejects empty or short text (cli.py lines
69-71). -/
def checkCvText (raw : String) : Except CliError String :=
  let cv := pyStrip raw
  if cv = ("") ∨ cv.length < 100 then .error .cvTooShort else .ok cv

/-! ### The renderer `render_markdown` (render.py) -/

/-- Python dict lookup on the parsed object. -/
def JObj.find : JObj → String → Option JValue
  | .nil, _ => none
  | .cons k v o, key => if k = key then some v else JObj.find o key

/-- Array elements as a Lean list. -/
def JArr.toList : JArr → List JValue
  | .nil => []
  | .cons v a => v :: JArr.toList a

/-- Object keys in order (iterating a Python dict yields its keys). -/
def JObj.keys : JObj → List String
  | .nil => []
  | .cons k _ o => k :: JObj.keys o

/-- Is a number lexeme numerically zero (hence falsy in Python)?  True
exactly when every mantissa digit is `0`. -/
def numIsZero (lex : String) : Bool :=
  let cs := match lex.data with
    | '-' :: r => r
    | r => r
  (cs.takeWhile (fun c => !(c = 'e' || c = 'E'))).all (fun c => c = '0' || c = '.')

/-- Python truthiness of a parsed-JSON value. -/
def truthy : JValue → Bool
  | .null => false
  | .boolean b => b
  | .num lex => !(numIsZero lex)
  | .str s => !(s = (""))
  | .arr .nil => false
  | .arr (.cons _ _) => true
  | .obj .nil => false
  | .obj (.cons _ _ _) => true

/-- The ways `render_markdown` can raise `TypeError`: iterating a
non-iterable (a truthy number or `True`), or `str.join` over non-string
elements. -/
inductive RenderError where
  | notIterable : RenderError
  | joinNonStr : RenderError
deriving DecidableEq

mutual
/-- Python `repr()` of a parsed-JSON value, used when formatting container
elements.  String quoting and numeric formatting are simplified (no escape
special-casing); the theorems below only evaluate it on strings, where
`str` and the f-string interpolation agree exactly. -/
def pyRepr : JValue → String
  | .null => ("None")
  | .boolean true => ("True")
  | .boolean false => ("False")
  | .num lex => lex
  | .str s => ("'") ++ s ++ ("'")
  | .arr a => ("[") ++ pyReprA a ++ ("]")
  | .obj o => ("\x7b") ++ pyReprO o ++ ("\x7d")
/-- `repr` of array elements, comma-separated. -/
def pyReprA : JArr → String
  | .nil => ("")
  | .cons v .nil => pyRepr v
  | .cons v (JArr.cons w a) => pyRepr v ++ (", ") ++ pyReprA (JArr.cons w a)
/-- `repr` of dict items, comma-separated. -/
def pyReprO : JObj → String
  | .nil => ("")
  | .cons k v .nil => ("'") ++ k ++ ("': ") ++ pyRepr v
  | .cons k v (JObj.cons k2 v2 o) =>
      ("'") ++ k ++ ("': ") ++ pyRepr v ++ (", ") ++ pyReprO (JObj.cons k2 v2 o)
end

/-- Python `str()` / f-string interpolation of a parsed-JSON value. -/
def pyStr : JValue → String
  | .str s => s
  | v => pyRepr v

/-- Collect a JSON array's elements as Lean strings when every element is
a string; `none` when some element is not (where `"\n".join` raises). -/
def strItems : JArr → Option (List String)
  | .nil => some []
  | .cons (.str s) a => (strItems a).map (fun l => s :: l)
  | .cons _ _ => none

/-- The `bullets` helper of `render_markdown` (render.py lines 5-9):
`items = data.get(key) or []`, a bare string becomes a one-element list,
then one `- ` line per element.  Iterating a truthy number or boolean is
Python's `TypeError`. -/
def bullets (data : JObj) (key : String) : Except RenderError String :=
  let v0 := match data.find key with
    | some v => v
    | none => JValue.null
  let items := if truthy v0 then v0 else JValue.arr .nil
  match items with
  | .str s => .ok (("- ") ++ s)
  | .arr a => .ok (String.intercalate ("\n") ((JArr.toList a).map (fun x => ("- ") ++ pyStr x)))
  | .obj o => .ok (String.intercalate ("\n") ((JObj.keys o).map (fun k => ("- ") ++ k)))
  | .null => .error .notIterable
  | .boolean _ => .error .notIterable
  | .num _ => .error .notIterable

/-- The `role_summary` block (render.py lines 13-16): emitted whenever the
key is present; a list value is `"\n".join`ed (raising on non-string
elements), anything else is interpolated. -/
def renderRoleSummary (data : JObj) : Except RenderError (List String) :=
  match data.find ("role_summary") with
  | none => .ok []
  | some rs =>
    match rs with
    | .arr a =>
      match strItems a with
      | some l => .ok [("## Role Summary\n"), String.intercalate ("\n") l ++ ("\n")]
      | none => .error .joinNonStr
    | v => .ok [("## Role Summary\n"), pyStr v ++ ("\n")]

/-- The seven bullet sections in their fixed order (render.py lines
18-26). -/
def sectionTitles : List (String × String) :=
  [(("top_required_skills"), ("Top Required Skills")),
   (("strong_overlaps"), ("Strong Overlaps (CV → JD)")),
   (("gaps_and_risks"), ("Gaps & Risks")),
   (("likely_tech_questions"), ("Likely Technical Questions")),
   (("behavioral_questions"), ("Behavioral Questions")),
   (("talking_points"), ("High-Impact Talking Points")),
   (("quick_upskilling_plan"), ("Quick Upskilling Plan (≤2h Tasks)"))]

/-- One bullet section: emitted only when `data.get(section)` is truthy
(render.py line 27). -/
def renderSection (data : JObj) (sec : String × String) : Except RenderError (List String) :=
  let v0 := match data.find sec.1 with
    | some v => v
    | none => JValue.null
  if truthy v0 then
    match bullets data sec.1 with
    | .ok b => .ok [("## ") ++ sec.2 ++ ("\n"), b ++ ("\n")]
    | .error e => .error e
  else .ok []

/-- All bullet sections in order. -/
def renderSectionsList (data : JObj) : List (String × String) → Except RenderError (List String)
  | [] => .ok []
  | sec :: rest =>
    match renderSection data sec with
    | .ok l =>
      match renderSectionsList data rest with
      | .ok l2 => .ok (l ++ l2)
      | .error e => .error e
    | .error e => .error e

/-- The `md` list built by `render_markdown` before joining. -/
def renderMd (data : JObj) : Except RenderError (List String) :=
  match renderRoleSummary data with
  | .ok l1 =>
    match renderSectionsList data sectionTitles with
    | .ok l2 => .ok (("# Interview Prep Brief\n") :: l1 ++ l2)
    | .error e => .error e
  | .error e => .error e

/-- `render_markdown` (render.py lines 4-31): join the pieces, strip, add
a final newline.  The `Except` layer records the `TypeError`s Python would
raise. -/
def render_markdown (data : JObj) : Except RenderError String :=
  match renderMd data with
  | .ok md => .ok (pyStrip (String.intercalate ("\n") md) ++ ("\n"))
  | .error e => .error e

/-- Is an `Except` a success? -/
def exOk {ε α : Type} : Except ε α → Bool
  | .ok _ => true
  | .error _ => false

/-- Does `cs` contain `pat` as a contiguous subsequence? -/
def containsSub (pat : List Char) : List Char → Bool
  | [] => litPre pat []
  | c :: rest => litPre pat (c :: rest) || containsSub pat rest

/-- Is every array element a string (so that `"\n".join` succeeds and
`- ` formatting is exact)? -/
def allStrA : JArr → Bool
  | .nil => true
  | .cons (.str _) a => allStrA a
  | .cons _ _ => false

/-- A value of the BriefRecord schema shape: a string, or a list of
strings. -/
def valOK : JValue → Bool
  | .str _ => true
  | .arr a => allStrA a
  | _ => false

/-- Are all values of the mapping schema-shaped? -/
def valsOK : JObj → Bool
  | .nil => true
  | .cons _ v o => valOK v && valsOK o

/-- The eight recognized BriefRecord keys. -/
def schemaKeys : List String :=
  [("role_summary"), ("top_required_skills"), ("strong_overlaps"),
   ("gaps_and_risks"), ("likely_tech_questions"), ("behavioral_questions"),
   ("talking_points"), ("quick_upskilling_plan")]

/-- Are all keys of the mapping among the eight schema keys? -/
def keysOK : JObj → Bool
  | .nil => true
  | .cons k _ o => schemaKeys.contains k && keysOK o

/-- Backtick-freeness of a character. -/
def noTickC (c : Char) : Bool := !(c = '\x60')

/-- Backtick-freeness of a character list. -/
def noTickL (cs : List Char) : Bool := cs.all noTickC

/-- Backtick-freeness of a string. -/
def noTickS (s : String) : Bool := noTickL s.data

/-- Backtick-freeness of a string array. -/
def noTickA : JArr → Bool
  | .nil => true
  | .cons (.str s) a => noTickS s && noTickA a
  | .cons _ a => noTickA a

/-- Backtick-freeness of a schema-shaped value (strings and lists of
strings; other shapes are outside the round-trip class). -/
def noTickVal : JValue → Bool
  | .str s => noTickS s
  | .arr a => noTickA a
  | _ => false

/-- Backtick-freeness of a mapping's keys and values. -/
def noTickO : JObj → Bool
  | .nil => true
  | .cons k v o => noTickS k && noTickVal v && noTickO o

/-! ## Theorems -/

/-! ### Round-trip of the serializer through the parser -/

theorem hexVal_hexDig : ∀ n, n < 16 → hexVal (hexDig n) = some n := by decide

/-- Decoding inverts escaping, one string body at a time. -/
theorem scanStr_escStr : ∀ (l rest : List Char),
    scanStr (escStr l ++ '"' :: rest) = some (l, rest)
  | [], rest => by
    unfold escStr scanStr
    simp
  | c :: l, rest => by
    have ih := scanStr_escStr l rest
    by_cases h1 : c = '"'
    · subst h1
      simp only [escStr, escChar]
      norm_num
      unfold scanStr
      simp [escUnmap, ih]
    by_cases h2 : c = '\\'
    · subst h2
      simp only [escStr, escChar]
      norm_num
      unfold scanStr
      simp [escUnmap, ih]
    by_cases h3 : c = '\n'
    · subst h3
      simp only [escStr, escChar]
      norm_num
      unfold scanStr
      simp [escUnmap, ih]
    by_cases h4 : c = '\t'
    · subst h4
      simp only [escStr, escChar]
      norm_num
      unfold scanStr
      simp [escUnmap, ih]
    by_cases h5 : c = '\r'
    · subst h5
      simp only [escStr, escChar]
      norm_num
      unfold scanStr
      simp [escUnmap, ih]
    by_cases h6 : c = '\x08'
    · subst h6
      simp only [escStr, escChar]
      norm_num
      unfold scanStr
      simp [escUnmap, ih]
    by_cases h7 : c = '\x0c'
    · subst h7
      simp only [escStr, escChar]
      norm_num
      unfold scanStr
      simp [escUnmap, ih]
    by_cases h8 : c.toNat < 32
    · have hd : c.toNat / 16 < 16 := by omega
      have hm : c.toNat % 16 < 16 := by omega
      have e1 := hexVal_hexDig (c.toNat / 16) hd
      have e2 := hexVal_hexDig (c.toNat % 16) hm
      have harith : ((0 * 16 + 0) * 16 + c.toNat / 16) * 16 + c.toNat % 16 = c.toNat := by
        omega
      have harith2 : c.toNat / 16 * 16 + c.toNat % 16 = c.toNat := by omega
      simp only [escStr, escChar, if_neg h1, if_neg h2, if_neg h3, if_neg h4,
        if_neg h5, if_neg h6, if_neg h7, if_pos h8]
      norm_num
      have e0 : hexVal '0' = some 0 := by decide
      unfold scanStr
      simp [e0, e1, e2, ih, harith, harith2, Char.ofNat_toNat]
    · simp only [escStr, escChar, if_neg h1, if_neg h2, if_neg h3, if_neg h4,
        if_neg h5, if_neg h6, if_neg h7, if_neg h8]
      norm_num
      unfold scanStr
      simp [h1, h2, h8, ih]

theorem dropWsJson_cons_nonws {c : Char} (l : List Char) (h : isWsJson c = false) :
    dropWsJson (c :: l) = c :: l := by
  simp [dropWsJson, List.dropWhile_cons, h]

theorem dropWsJson_cons_ws {c : Char} (l : List Char) (h : isWsJson c = true) :
    dropWsJson (c :: l) = dropWsJson l := by
  simp [dropWsJson, List.dropWhile_cons, h]

theorem dropWsJson_quote_head (t : List Char) : dropWsJson ('"' :: t) = '"' :: t :=
  dropWsJson_cons_nonws _ (by decide)

theorem jstr_shape (s : String) : jstr s = '"' :: (escStr s.data ++ ['"']) := rfl

theorem jstr_len (s : String) : (jstr s).length = (escStr s.data).length + 2 := by
  simp [jstr]

/-- Parsing a serialized string value. -/
theorem jValue_str (f : Nat) (hf : 0 < f) (s : String) (rest cs : List Char)
    (hcs : dropWsJson cs = jstr s ++ rest) :
    jValue f cs = some (.str s, rest) := by
  obtain ⟨f', rfl⟩ : ∃ f', f = f' + 1 := ⟨f - 1, by omega⟩
  have hshape : dropWsJson cs = '"' :: (escStr s.data ++ '"' :: rest) := by
    rw [hcs, jstr_shape]
    simp
  simp [jValue, hshape, scanStr_escStr]

/-- Parsing serialized array elements (a nonempty all-string array). -/
theorem jElems_dump : ∀ (a : JArr) (f : Nat) (rest0 cs : List Char),
    allStrA a = true → a ≠ .nil →
    dropWsJson cs = dumpA a ++ ']' :: rest0 →
    (dumpA a).length < f →
    jElems f cs = some (a, rest0)
  | .nil, _, _, _, _, hne, _, _ => absurd rfl hne
  | .cons v .nil, f, rest0, cs, hstr, _, hcs, hlen => by
    cases v with
    | str s =>
      obtain ⟨f', rfl⟩ : ∃ f', f = f' + 1 := ⟨f - 1, by omega⟩
      have hv : jValue f' cs = some (.str s, ']' :: rest0) := by
        refine jValue_str f' ?_ s (']' :: rest0) cs ?_
        · have := jstr_len s
          simp only [dumpA, dumpV] at hlen
          omega
        · rw [hcs]; rfl
      simp [jElems, hv, dropWsJson_cons_nonws _ (by decide : isWsJson ']' = false)]
    | null => simp [allStrA] at hstr
    | boolean b => simp [allStrA] at hstr
    | num lex => simp [allStrA] at hstr
    | arr a2 => simp [allStrA] at hstr
    | obj o => simp [allStrA] at hstr
  | .cons v (JArr.cons w a), f, rest0, cs, hstr, _, hcs, hlen => by
    cases v with
    | str s =>
      have hwstr : allStrA (JArr.cons w a) = true := by
        simpa [allStrA] using hstr
      obtain ⟨f', rfl⟩ : ∃ f', f = f' + 1 := ⟨f - 1, by omega⟩
      have hlen1 : (dumpA (JArr.cons (JValue.str s) (JArr.cons w a))).length
          = (jstr s).length + 2 + (dumpA (JArr.cons w a)).length := by
        simp [dumpA, dumpV]
        omega
      have hv : jValue f' cs
          = some (.str s, ',' :: ' ' :: (dumpA (JArr.cons w a) ++ ']' :: rest0)) := by
        refine jValue_str f' ?_ s _ cs ?_
        · have := jstr_len s
          omega
        · rw [hcs]
          simp [dumpA, dumpV, jstr_shape]
      have hhead : ∃ t, dumpA (JArr.cons w a) = '"' :: t := by
        cases w with
        | str sw =>
          cases a with
          | nil => exact ⟨escStr sw.data ++ ['"'], by simp [dumpA, dumpV, jstr_shape]⟩
          | cons w2 a2 =>
            exact ⟨(escStr sw.data ++ ['"']) ++ ',' :: ' ' :: dumpA (JArr.cons w2 a2),
              by simp [dumpA, dumpV, jstr_shape]⟩
        | null => simp [allStrA] at hwstr
        | boolean b => simp [allStrA] at hwstr
        | num lex => simp [allStrA] at hwstr
        | arr a2 => simp [allStrA] at hwstr
        | obj o => simp [allStrA] at hwstr
      obtain ⟨t, ht⟩ := hhead
      have hrec : jElems f' (' ' :: (dumpA (JArr.cons w a) ++ ']' :: rest0))
          = some (JArr.cons w a, rest0) := by
        refine jElems_dump (JArr.cons w a) f' rest0 _ hwstr (by simp) ?_ ?_
        · rw [dropWsJson_cons_ws _ (by decide : isWsJson ' ' = true), ht]
          simp only [List.cons_append]
          exact dropWsJson_quote_head _
        · omega
      simp [jElems, hv, dropWsJson_cons_nonws _ (by decide : isWsJson ',' = false), hrec]
    | null => simp [allStrA] at hstr
    | boolean b => simp [allStrA] at hstr
    | num lex => simp [allStrA] at hstr
    | arr a2 => simp [allStrA] at hstr
    | obj o => simp [allStrA] at hstr

/-- Parsing a serialized schema-shaped value (string or list of
strings). -/
theorem jValue_dump (v : JValue) (f : Nat) (rest cs : List Char)
    (hok : valOK v = true)
    (hcs : dropWsJson cs = dumpV v ++ rest)
    (hlen : (dumpV v).length < f) :
    jValue f cs = some (v, rest) := by
  cases v with
  | str s => exact jValue_str f (by omega) s rest cs hcs
  | arr a =>
    obtain ⟨f', rfl⟩ : ∃ f', f = f' + 1 := ⟨f - 1, by omega⟩
    cases a with
    | nil =>
      have hshape : dropWsJson cs = '[' :: (']' :: rest) := by
        rw [hcs]; simp [dumpV, dumpA]
      simp [jValue, hshape, dropWsJson_cons_nonws _ (by decide : isWsJson ']' = false)]
    | cons w a2 =>
      have hwstr : allStrA (JArr.cons w a2) = true := by simpa [valOK] using hok
      have hshape : dropWsJson cs = '[' :: (dumpA (JArr.cons w a2) ++ ']' :: rest) := by
        rw [hcs]; simp [dumpV]
      have hhead : ∃ t, dumpA (JArr.cons w a2) = '"' :: t := by
        cases w with
        | str sw =>
          cases a2 with
          | nil => exact ⟨escStr sw.data ++ ['"'], by simp [dumpA, dumpV, jstr_shape]⟩
          | cons w2 a3 =>
            exact ⟨(escStr sw.data ++ ['"']) ++ ',' :: ' ' :: dumpA (JArr.cons w2 a3),
              by simp [dumpA, dumpV, jstr_shape]⟩
        | null => simp [allStrA] at hwstr
        | boolean b => simp [allStrA] at hwstr
        | num lex => simp [allStrA] at hwstr
        | arr a3 => simp [allStrA] at hwstr
        | obj o => simp [allStrA] at hwstr
      obtain ⟨t, ht⟩ := hhead
      have hlen2 : (dumpV (JValue.arr (JArr.cons w a2))).length
          = (dumpA (JArr.cons w a2)).length + 2 := by
        simp [dumpV]
      have hrec : jElems f' (dumpA (JArr.cons w a2) ++ ']' :: rest)
          = some (JArr.cons w a2, rest) := by
        refine jElems_dump (JArr.cons w a2) f' rest _ hwstr (by simp) ?_ (by omega)
        rw [ht]
        simp only [List.cons_append]
        exact dropWsJson_quote_head _
      have hrec' : jElems f' ('"' :: (t ++ ']' :: rest)) = some (JArr.cons w a2, rest) := by
        have heq : dumpA (JArr.cons w a2) ++ ']' :: rest = '"' :: (t ++ ']' :: rest) := by
          rw [ht]; simp
        rwa [heq] at hrec
      have hshape' : dropWsJson cs = '[' :: ('"' :: (t ++ ']' :: rest)) := by
        rw [hshape, ht]; simp
      unfold jValue
      rw [hshape']
      simp [dropWsJson_quote_head, hrec']
  | null => simp [valOK] at hok
  | boolean b => simp [valOK] at hok
  | num lex => simp [valOK] at hok
  | obj o => simp [valOK] at hok

/-- Serialized schema-shaped values start with a non-whitespace character. -/
theorem dropWsJson_dumpV (v : JValue) (hok : valOK v = true) (z : List Char) :
    dropWsJson (dumpV v ++ z) = dumpV v ++ z := by
  cases v with
  | str s =>
    have h1 : dumpV (JValue.str s) ++ z = '"' :: (escStr s.data ++ '"' :: z) := by
      simp [dumpV, jstr_shape]
    rw [h1]
    exact dropWsJson_quote_head _
  | arr a =>
    have h1 : dumpV (JValue.arr a) ++ z = '[' :: (dumpA a ++ ']' :: z) := by
      simp [dumpV]
    rw [h1]
    exact dropWsJson_cons_nonws _ (by decide)
  | null => simp [valOK] at hok
  | boolean b => simp [valOK] at hok
  | num lex => simp [valOK] at hok
  | obj o => simp [valOK] at hok

/-- Serialized members start with the quote of their first key. -/
theorem dumpO_shape (k : String) (v : JValue) (o : JObj) :
    ∃ t, dumpO (JObj.cons k v o) = '"' :: t := by
  cases o with
  | nil => exact ⟨escStr k.data ++ '"' :: ':' :: ' ' :: dumpV v, by simp [dumpO, jstr_shape]⟩
  | cons k2 v2 o2 =>
    exact ⟨escStr k.data ++ '"' :: ':' :: ' ' :: dumpV v
        ++ ',' :: ' ' :: dumpO (JObj.cons k2 v2 o2),
      by simp [dumpO, jstr_shape]⟩

/-- Parsing serialized object members (a nonempty mapping with
schema-shaped values). -/
theorem jMembers_dump : ∀ (o : JObj) (f : Nat) (rest0 : List Char),
    valsOK o = true → o ≠ .nil →
    (dumpO o).length < f →
    jMembers f (dumpO o ++ '\x7d' :: rest0) = some (o, rest0)
  | .nil, _, _, _, hne, _ => absurd rfl hne
  | .cons k v o', f, rest0, hvals, _, hlen => by
    have hv : valOK v = true ∧ valsOK o' = true := by
      simpa [valsOK, Bool.and_eq_true] using hvals
    obtain ⟨f', rfl⟩ : ∃ f', f = f' + 1 := ⟨f - 1, by omega⟩
    cases o' with
    | nil =>
      have hlenO : (dumpO (JObj.cons k v JObj.nil)).length
          = (jstr k).length + 2 + (dumpV v).length := by
        simp [dumpO]
        omega
      have hshape : dumpO (JObj.cons k v JObj.nil) ++ '\x7d' :: rest0
          = '"' :: (escStr k.data ++ '"' :: (':' :: ' ' :: (dumpV v ++ '\x7d' :: rest0))) := by
        simp [dumpO, jstr_shape]
      have hval : jValue f' (' ' :: (dumpV v ++ '\x7d' :: rest0))
          = some (v, '\x7d' :: rest0) := by
        refine jValue_dump v f' _ _ hv.1 ?_ ?_
        · rw [dropWsJson_cons_ws _ (by decide : isWsJson ' ' = true)]
          exact dropWsJson_dumpV v hv.1 _
        · have := jstr_len k
          omega
      rw [hshape]
      unfold jMembers
      simp [scanStr_escStr, dropWsJson_cons_nonws _ (by decide : isWsJson ':' = false),
        hval, dropWsJson_cons_nonws _ (by decide : isWsJson '\x7d' = false)]
    | cons k2 v2 o2 =>
      have hlenO : (dumpO (JObj.cons k v (JObj.cons k2 v2 o2))).length
          = (jstr k).length + 2 + (dumpV v).length + 2
            + (dumpO (JObj.cons k2 v2 o2)).length := by
        simp [dumpO]
        omega
      have hshape : dumpO (JObj.cons k v (JObj.cons k2 v2 o2)) ++ '\x7d' :: rest0
          = '"' :: (escStr k.data ++ '"' :: (':' :: ' '
            :: (dumpV v ++ ',' :: ' ' :: (dumpO (JObj.cons k2 v2 o2) ++ '\x7d' :: rest0)))) := by
        simp [dumpO, jstr_shape]
      have hval : jValue f' (' ' :: (dumpV v ++ ',' :: ' '
            :: (dumpO (JObj.cons k2 v2 o2) ++ '\x7d' :: rest0)))
          = some (v, ',' :: ' ' :: (dumpO (JObj.cons k2 v2 o2) ++ '\x7d' :: rest0)) := by
        refine jValue_dump v f' _ _ hv.1 ?_ ?_
        · rw [dropWsJson_cons_ws _ (by decide : isWsJson ' ' = true)]
          exact dropWsJson_dumpV v hv.1 _
        · have := jstr_len k
          omega
      obtain ⟨t2, ht2⟩ := dumpO_shape k2 v2 o2
      have hdrop : dropWsJson (' ' :: (dumpO (JObj.cons k2 v2 o2) ++ '\x7d' :: rest0))
          = dumpO (JObj.cons k2 v2 o2) ++ '\x7d' :: rest0 := by
        rw [dropWsJson_cons_ws _ (by decide : isWsJson ' ' = true), ht2]
        simp only [List.cons_append]
        exact dropWsJson_quote_head _
      have hrec : jMembers f' (dumpO (JObj.cons k2 v2 o2) ++ '\x7d' :: rest0)
          = some (JObj.cons k2 v2 o2, rest0) := by
        refine jMembers_dump (JObj.cons k2 v2 o2) f' rest0 hv.2 (by simp) ?_
        have := jstr_len k
        omega
      rw [hshape]
      unfold jMembers
      simp [scanStr_escStr, dropWsJson_cons_nonws _ (by decide : isWsJson ':' = false),
        hval, dropWsJson_cons_nonws _ (by decide : isWsJson ',' = false), hdrop, hrec]

/-- Parsing a serialized mapping with schema-shaped values. -/
theorem jValue_dumpObj (m : JObj) (f : Nat) (rest cs : List Char)
    (hvals : valsOK m = true)
    (hcs : dropWsJson cs = dumpV (.obj m) ++ rest)
    (hlen : (dumpV (.obj m)).length < f) :
    jValue f cs = some (.obj m, rest) := by
  obtain ⟨f', rfl⟩ : ∃ f', f = f' + 1 := ⟨f - 1, by omega⟩
  cases m with
  | nil =>
    have hshape : dropWsJson cs = '\x7b' :: ('\x7d' :: rest) := by
      rw [hcs]; simp [dumpV, dumpO]
    unfold jValue
    rw [hshape]
    simp [dropWsJson_cons_nonws _ (by decide : isWsJson '\x7d' = false)]
  | cons k v o =>
    obtain ⟨t, ht⟩ := dumpO_shape k v o
    have hlenV : (dumpV (JValue.obj (JObj.cons k v o))).length
        = (dumpO (JObj.cons k v o)).length + 2 := by
      simp [dumpV]
    have hrec : jMembers f' (dumpO (JObj.cons k v o) ++ '\x7d' :: rest)
        = some (JObj.cons k v o, rest) := by
      refine jMembers_dump (JObj.cons k v o) f' rest hvals (by simp) (by omega)
    have hrec' : jMembers f' ('"' :: (t ++ '\x7d' :: rest))
        = some (JObj.cons k v o, rest) := by
      have heq : dumpO (JObj.cons k v o) ++ '\x7d' :: rest = '"' :: (t ++ '\x7d' :: rest) := by
        rw [ht]; simp
      rwa [heq] at hrec
    have hshape : dropWsJson cs = '\x7b' :: ('"' :: (t ++ '\x7d' :: rest)) := by
      rw [hcs]
      simp only [dumpV]
      rw [ht]
      simp
    unfold jValue
    rw [hshape]
    simp [dropWsJson_quote_head, hrec']

/-- Round trip: a serialized schema-shaped mapping parses back to itself. -/
theorem jloads_jdumps (m : JObj) (h : valsOK m = true) :
    jloads (jdumps (.obj m)) = some (.obj m) := by
  unfold jloads
  have hdata : (jdumps (JValue.obj m)).data = dumpV (JValue.obj m) := rfl
  have hv : jValue ((jdumps (JValue.obj m)).data.length + 1) (jdumps (JValue.obj m)).data
      = some (.obj m, []) := by
    refine jValue_dumpObj m _ [] _ h ?_ ?_
    · rw [hdata]
      have : dumpV (JValue.obj m) ++ ([] : List Char) = dumpV (JValue.obj m) := by simp
      rw [this]
      cases m with
      | nil => decide
      | cons k v o =>
        obtain ⟨t, ht⟩ := dumpO_shape k v o
        have : dumpV (JValue.obj (JObj.cons k v o)) = '\x7b' :: (dumpO (JObj.cons k v o) ++ ['\x7d']) := by
          simp [dumpV]
        rw [this]
        exact dropWsJson_cons_nonws _ (by decide)
    · rw [hdata]
      omega
  rw [hv]
  rfl

/-! ### Extraction of a labeled fence -/

theorem dropWsPy_cons_nonws {c : Char} (l : List Char) (h : isWsPy c = false) :
    dropWsPy (c :: l) = c :: l := by
  simp [dropWsPy, List.dropWhile_cons, h]

theorem dropWsPy_cons_ws {c : Char} (l : List Char) (h : isWsPy c = true) :
    dropWsPy (c :: l) = dropWsPy l := by
  simp [dropWsPy, List.dropWhile_cons, h]

theorem litPre_self_append : ∀ (p z : List Char), litPre p (p ++ z) = true
  | [], _ => rfl
  | c :: p, z => by simp [litPre, litPre_self_append p z]

/-- After an interior closing brace of a backtick-free span, the
continuation `\s*` + fence can never match: the first following
non-whitespace character is either a backtick-free character of the span
or the span's own final closing brace. -/
theorem afterCloseOk_false : ∀ (pre z : List Char), noTickL pre = true →
    afterCloseOk (pre ++ '\x7d' :: z) = false
  | [], z, _ => by
    have h1 : dropWsPy ('\x7d' :: z) = '\x7d' :: z := dropWsPy_cons_nonws _ (by decide)
    simp [afterCloseOk, h1, tick3, litPre]
  | c :: pre, z, h => by
    have hc : noTickC c = true ∧ noTickL pre = true := by
      simpa [noTickL, Bool.and_eq_true] using h
    have hcc : ¬('\x60' = c) := by
      intro he
      simp [noTickC, ← he] at hc
    by_cases hw : isWsPy c = true
    · have h1 : dropWsPy ((c :: pre) ++ '\x7d' :: z) = dropWsPy (pre ++ '\x7d' :: z) := by
        simp only [List.cons_append]
        exact dropWsPy_cons_ws _ hw
      have ih := afterCloseOk_false pre z hc.2
      simp only [afterCloseOk] at ih ⊢
      rw [h1]
      exact ih
    · have h1 : dropWsPy (c :: (pre ++ '\x7d' :: z)) = c :: (pre ++ '\x7d' :: z) :=
        dropWsPy_cons_nonws _ (by simpa using hw)
      simp only [afterCloseOk, List.cons_append]
      rw [h1]
      simp [tick3, litPre, hcc]

/-- The lazy `.*?\}` scan inside a backtick-free span stops exactly at its
final closing brace, whose continuation is newline + closing fence. -/
theorem lazyBody_dump : ∀ (pre z : List Char), noTickL pre = true →
    lazyBody (pre ++ '\x7d' :: '\n' :: (tick3 ++ z)) = some (pre ++ ['\x7d'])
  | [], z, _ => by
    have h1 : dropWsPy ('\n' :: (tick3 ++ z)) = tick3 ++ z := by
      rw [dropWsPy_cons_ws _ (by decide)]
      exact dropWsPy_cons_nonws _ (by decide)
    have hac : afterCloseOk ('\n' :: (tick3 ++ z)) = true := by
      simp [afterCloseOk, h1, litPre_self_append]
    unfold lazyBody
    simp [hac]
  | c :: pre, z, h => by
    have hc : noTickC c = true ∧ noTickL pre = true := by
      simpa [noTickL, Bool.and_eq_true] using h
    have ih := lazyBody_dump pre z hc.2
    have hfalse : (c = '\x7d' && afterCloseOk (pre ++ '\x7d' :: '\n' :: (tick3 ++ z))) = false := by
      by_cases hcc : c = '\x7d'
      · have := afterCloseOk_false pre ('\n' :: (tick3 ++ z)) hc.2
        simp [hcc, this]
      · simp [hcc]
    simp only [List.cons_append]
    unfold lazyBody
    rw [hfalse]
    simp [ih]

theorem noTickL_append (a b : List Char) :
    noTickL (a ++ b) = (noTickL a && noTickL b) := by
  simp [noTickL, List.all_append]

theorem noTickC_hexDig : ∀ n, n < 16 → noTickC (hexDig n) = true := by decide

/-- Escaping a backtick-free character produces no backticks. -/
theorem noTickL_escChar (c : Char) (h : noTickC c = true) : noTickL (escChar c) = true := by
  by_cases h1 : c = '"'
  · simp [escChar, h1, noTickL, noTickC]
  by_cases h2 : c = '\\'
  · simp [escChar, h1, h2, noTickL, noTickC]
  by_cases h3 : c = '\n'
  · simp [escChar, h1, h2, h3, noTickL, noTickC]
  by_cases h4 : c = '\t'
  · simp [escChar, h1, h2, h3, h4, noTickL, noTickC]
  by_cases h5 : c = '\r'
  · simp [escChar, h1, h2, h3, h4, h5, noTickL, noTickC]
  by_cases h6 : c = '\x08'
  · simp [escChar, h1, h2, h3, h4, h5, h6, noTickL, noTickC]
  by_cases h7 : c = '\x0c'
  · simp [escChar, h1, h2, h3, h4, h5, h6, h7, noTickL, noTickC]
  by_cases h8 : c.toNat < 32
  · have e1 := noTickC_hexDig (c.toNat / 16) (by omega)
    have e2 := noTickC_hexDig (c.toNat % 16) (by omega)
    simp [escChar, h1, h2, h3, h4, h5, h6, h7, h8, noTickL, e1, e2]
    constructor <;> decide
  · simp [escChar, h1, h2, h3, h4, h5, h6, h7, h8, noTickL, h]

theorem noTickL_escStr : ∀ (l : List Char), noTickL l = true → noTickL (escStr l) = true
  | [], _ => rfl
  | c :: l, h => by
    have hc : noTickC c = true ∧ noTickL l = true := by
      simpa [noTickL, Bool.and_eq_true] using h
    have h1 := noTickL_escChar c hc.1
    have h2 := noTickL_escStr l hc.2
    rw [escStr, noTickL_append, h1, h2]
    rfl

theorem noTickL_jstr (s : String) (h : noTickS s = true) : noTickL (jstr s) = true := by
  rw [jstr_shape]
  have h1 := noTickL_escStr s.data h
  simp [noTickL, List.all_append] at h1 ⊢
  constructor
  · decide
  constructor
  · intro a ha
    have := h1 a ha
    simpa [noTickC] using this
  · decide

/-- Serializing a backtick-free schema-shaped value produces no
backticks. -/
theorem noTickL_dumpV : ∀ (v : JValue), valOK v = true → noTickVal v = true →
    noTickL (dumpV v) = true
  | .str s, _, ht => by
    have := noTickL_jstr s (by simpa [noTickVal] using ht)
    simpa [dumpV] using this
  | .arr .nil, _, _ => by decide
  | .arr (JArr.cons w a), hok, ht => by
    cases w with
    | str s =>
      have hts : noTickS s = true ∧ noTickA a = true := by
        simpa [noTickVal, noTickA, Bool.and_eq_true] using ht
      have hok' : valOK (JValue.arr a) = true := by
        simpa [valOK, allStrA] using hok
      have ih := noTickL_dumpV (JValue.arr a) hok' (by simpa [noTickVal] using hts.2)
      have hjs := noTickL_jstr s hts.1
      cases a with
      | nil =>
        have h1 : dumpV (JValue.arr (JArr.cons (JValue.str s) JArr.nil))
            = '[' :: (jstr s ++ [']']) := by
          simp [dumpV, dumpA]
        rw [h1]
        simp [noTickL, List.all_append] at hjs ⊢
        refine ⟨by decide, fun a ha => hjs a ha, by decide⟩
      | cons w2 a2 =>
        have h1 : dumpV (JValue.arr (JArr.cons (JValue.str s) (JArr.cons w2 a2)))
            = '[' :: (jstr s ++ ',' :: ' ' :: (dumpA (JArr.cons w2 a2) ++ [']'])) := by
          simp [dumpV, dumpA]
        have ih' : noTickL (dumpA (JArr.cons w2 a2)) = true := by
          have h2 : dumpV (JValue.arr (JArr.cons w2 a2))
              = '[' :: (dumpA (JArr.cons w2 a2) ++ [']']) := by
            simp [dumpV]
          rw [h2] at ih
          simp [noTickL, List.all_append] at ih
          simp [noTickL]
          exact fun a ha => ih.2.1 a ha
        rw [h1]
        simp [noTickL, List.all_append] at hjs ih' ⊢
        exact ⟨by decide, fun a ha => hjs a ha, by decide, by decide,
          fun a ha => ih' a ha, by decide⟩
    | null => simp [allStrA, valOK] at hok
    | boolean b => simp [allStrA, valOK] at hok
    | num lex => simp [allStrA, valOK] at hok
    | arr a2 => simp [allStrA, valOK] at hok
    | obj o => simp [allStrA, valOK] at hok
  | .null, hok, _ => by simp [valOK] at hok
  | .boolean b, hok, _ => by simp [valOK] at hok
  | .num lex, hok, _ => by simp [valOK] at hok
  | .obj o, hok, _ => by simp [valOK] at hok

/-- Serializing a backtick-free mapping produces no backticks. -/
theorem noTickL_dumpO : ∀ (o : JObj), valsOK o = true → noTickO o = true →
    noTickL (dumpO o) = true
  | .nil, _, _ => rfl
  | .cons k v o, hok, ht => by
    have hok' : valOK v = true ∧ valsOK o = true := by
      simpa [valsOK, Bool.and_eq_true] using hok
    have ht' : noTickS k = true ∧ noTickVal v = true ∧ noTickO o = true := by
      simpa [noTickO, Bool.and_eq_true, and_assoc] using ht
    have hk := noTickL_jstr k ht'.1
    have hv := noTickL_dumpV v hok'.1 ht'.2.1
    cases o with
    | nil =>
      have h1 : dumpO (JObj.cons k v JObj.nil) = jstr k ++ ':' :: ' ' :: dumpV v := rfl
      rw [h1]
      simp [noTickL, List.all_append] at hk hv ⊢
      exact ⟨fun a ha => hk a ha, by decide, by decide, fun a ha => hv a ha⟩
    | cons k2 v2 o2 =>
      have ih := noTickL_dumpO (JObj.cons k2 v2 o2) hok'.2 ht'.2.2
      have h1 : dumpO (JObj.cons k v (JObj.cons k2 v2 o2))
          = jstr k ++ ':' :: ' ' :: dumpV v ++ ',' :: ' ' :: dumpO (JObj.cons k2 v2 o2) := rfl
      rw [h1]
      simp [noTickL, List.all_append] at hk hv ih ⊢
      exact ⟨fun a ha => hk a ha, by decide, by decide, fun a ha => hv a ha,
        by decide, by decide, fun a ha => ih a ha⟩

/-- The labeled-fence pattern matched at the fence itself returns exactly
the braced body. -/
theorem tryLabeledAt_fence (inner z : List Char) (h : noTickL inner = true) :
    tryLabeledAt ('\x60' :: '\x60' :: '\x60' :: 'j' :: 's' :: 'o' :: 'n' :: '\n'
        :: ('\x7b' :: (inner ++ '\x7d' :: '\n' :: (tick3 ++ z))))
      = some ('\x7b' :: (inner ++ ['\x7d'])) := by
  have hopen : labeledOpenAt ('\x60' :: '\x60' :: '\x60' :: 'j' :: 's' :: 'o' :: 'n' :: '\n'
        :: ('\x7b' :: (inner ++ '\x7d' :: '\n' :: (tick3 ++ z))))
      = some ('\n' :: ('\x7b' :: (inner ++ '\x7d' :: '\n' :: (tick3 ++ z)))) := by
    simp [labeledOpenAt, litPre, litPreCI, tick3, jsonWord]
  have hdrop : dropWsPy ('\n' :: ('\x7b' :: (inner ++ '\x7d' :: '\n' :: (tick3 ++ z))))
      = '\x7b' :: (inner ++ '\x7d' :: '\n' :: (tick3 ++ z)) := by
    rw [dropWsPy_cons_ws _ (by decide)]
    exact dropWsPy_cons_nonws _ (by decide)
  have hlazy := lazyBody_dump inner z h
  unfold tryLabeledAt
  rw [hopen]
  simp only [hdrop]
  rw [hlazy]

/-- Searching for the labeled-fence pattern skips a backtick-free
prefix: every candidate start inside it fails at the opening fence. -/
theorem searchLabeled_append : ∀ (p X : List Char), noTickL p = true →
    searchLabeled (p ++ X) = searchLabeled X
  | [], _, _ => by simp
  | c :: p, X, h => by
    have hc : noTickC c = true ∧ noTickL p = true := by
      simpa [noTickL, Bool.and_eq_true] using h
    have hcc : ¬('\x60' = c) := by
      intro he
      simp [noTickC, ← he] at hc
    have hnone : tryLabeledAt (c :: (p ++ X)) = none := by
      have hlit : litPre tick3 (c :: (p ++ X)) = false := by
        simp [litPre, tick3, hcc]
      simp [tryLabeledAt, labeledOpenAt, hlit]
    have ih := searchLabeled_append p X hc.2
    have step : searchLabeled (c :: (p ++ X)) = searchLabeled (p ++ X) := by
      conv_lhs => rw [searchLabeled]
      rw [hnone]
    simp only [List.cons_append]
    rw [step, ih]

/-- The embedding of a structured-data body in a labeled fence between
two pieces of prose, used by the round-trip and priority claims. -/
def fenceWrap (p body s : String) : String :=
  p ++ ("\x60\x60\x60json\n") ++ body ++ ("\n\x60\x60\x60") ++ s

theorem fenceWrap_data (p body s : String) :
    (fenceWrap p body s).data
      = p.data ++ ('\x60' :: '\x60' :: '\x60' :: 'j' :: 's' :: 'o' :: 'n' :: '\n'
        :: (body.data ++ '\n' :: (tick3 ++ s.data))) := by
  simp [fenceWrap, tick3]

/-- Stripping a brace-delimited span is the identity. -/
theorem pyStripL_brace (x : List Char) :
    pyStripL ('\x7b' :: (x ++ ['\x7d'])) = '\x7b' :: (x ++ ['\x7d']) := by
  have h1 : dropWsPy ('\x7b' :: (x ++ ['\x7d'])) = '\x7b' :: (x ++ ['\x7d']) :=
    dropWsPy_cons_nonws _ (by decide)
  have h2 : ('\x7b' :: (x ++ ['\x7d'])).reverse = '\x7d' :: (x.reverse ++ ['\x7b']) := by
    simp
  have h3 : dropWsPy ('\x7d' :: (x.reverse ++ ['\x7b'])) = '\x7d' :: (x.reverse ++ ['\x7b']) :=
    dropWsPy_cons_nonws _ (by decide)
  unfold pyStripL trimRightWs
  rw [h1, h2, h3]
  simp

/-- On a fence-wrapped serialized mapping, the labeled-fence strategy
finds exactly the serialized body. -/
theorem searchLabeled_fenceWrap (p s : String) (m : JObj)
    (hp : noTickS p = true) (hv : valsOK m = true) (htk : noTickO m = true) :
    searchLabeled (fenceWrap p (jdumps (.obj m)) s).data = some (dumpV (.obj m)) := by
  have hinner : noTickL (dumpO m) = true := noTickL_dumpO m hv htk
  have hbody : (jdumps (JValue.obj m)).data = '\x7b' :: (dumpO m ++ ['\x7d']) := by
    simp [jdumps, dumpV]
  have hdata : (fenceWrap p (jdumps (.obj m)) s).data
      = p.data ++ ('\x60' :: '\x60' :: '\x60' :: 'j' :: 's' :: 'o' :: 'n' :: '\n'
        :: ('\x7b' :: (dumpO m ++ '\x7d' :: '\n' :: (tick3 ++ s.data)))) := by
    rw [fenceWrap_data, hbody]
    simp
  rw [hdata, searchLabeled_append _ _ hp]
  unfold searchLabeled
  rw [tryLabeledAt_fence (dumpO m) s.data hinner]
  simp [dumpV]

/-- On a fence-wrapped serialized mapping, the whole extraction cascade
returns exactly the serialized body. -/
theorem extract_json_block_fenceWrap (p s : String) (m : JObj)
    (hp : noTickS p = true) (hv : valsOK m = true) (htk : noTickO m = true) :
    extract_json_block (fenceWrap p (jdumps (.obj m)) s) = jdumps (.obj m) := by
  unfold extract_json_block
  rw [searchLabeled_fenceWrap p s m hp hv htk]
  have hstrip : pyStripL (dumpV (JValue.obj m)) = dumpV (JValue.obj m) := by
    have h1 : dumpV (JValue.obj m) = '\x7b' :: (dumpO m ++ ['\x7d']) := by
      simp [dumpV]
    rw [h1]
    exact pyStripL_brace (dumpO m)
  simp [pyStrip, hstrip, jdumps]

/-- Fence-wrapped coercion: when the whole text does not parse, the
coercer extracts the labeled fence's body and parses it back to the
original mapping. -/
theorem coerce_fenceWrap (p s : String) (m : JObj)
    (hp : noTickS p = true) (hv : valsOK m = true) (htk : noTickO m = true)
    (hw : jloads (fenceWrap p (jdumps (.obj m)) s) = none) :
    coerce (fenceWrap p (jdumps (.obj m)) s) = .ok (.obj m) := by
  unfold coerce
  rw [hw]
  simp only [extract_json_block_fenceWrap p s m hp hv htk, jloads_jdumps m hv]

/-! ### C2: the round-trip law -/

/-- C2 counterexample: a mapping with the schema key `role_summary` and a
plain string value, serialized as JSON inside a json-labeled fenced block
embedded in prose.  Because the value contains a closing brace followed
by whitespace and three backticks, the non-greedy fence pattern ends the
candidate span inside the string: coercion raises instead of returning
the original record, so the unrestricted round-trip law fails. -/
theorem coerce_roundtrip_counterexample :
    coerce (fenceWrap ("Sure!\n")
        (jdumps (.obj (.cons ("role_summary") (.str ("a\x7d \x60\x60\x60b")) .nil)))
        ("\nthanks"))
      = .error (.malformed ("\x7b\"role_summary\": \"a\x7d")) := rfl

/-- C2 amended: the round-trip law holds for every mapping whose keys are
among the eight schema keys and whose values are strings or lists of
strings, provided the mapping's keys and values are backtick-free, the
prose before the fence is backtick-free, and the embedded text does not
itself parse as JSON: serializing the mapping inside a json-labeled
fenced block surrounded by such prose and coercing the result returns a
record equal to the original mapping. -/
theorem coerce_roundtrip_labeled (m : JObj) (p s : String)
    (hkeys : keysOK m = true) (hvals : valsOK m = true)
    (htick : noTickO m = true) (hp : noTickS p = true)
    (hwhole : jloads (fenceWrap p (jdumps (.obj m)) s) = none) :
    coerce (fenceWrap p (jdumps (.obj m)) s) = .ok (.obj m) :=
  coerce_fenceWrap p s m hp hvals htick hwhole

theorem coerce_roundtrip_labeled_witness :
    coerce (fenceWrap ("Sure! ")
        (jdumps (.obj (.cons ("role_summary") (.str ("ok")) .nil))) (" thanks"))
      = .ok (.obj (.cons ("role_summary") (.str ("ok")) .nil)) :=
  coerce_roundtrip_labeled (.cons ("role_summary") (.str ("ok")) .nil)
    ("Sure! ") (" thanks") (by decide) (by decide) (by decide) (by decide) rfl

/-! ### C1: fallback priority of the coercer -/

/-- Raw text containing, in order: prose, a json-labeled fenced object, a
second piece of prose, an unlabeled fenced object, more prose, and a
trailing bare object anchored at the end of the text. -/
def c1Text (p0 : String) (mL mU mT : JObj) (p1 p2 : String) : String :=
  fenceWrap p0 (jdumps (.obj mL))
    (("\n") ++ p1 ++ ("\x60\x60\x60\n") ++ jdumps (.obj mU)
      ++ ("\n\x60\x60\x60\n") ++ p2 ++ jdumps (.obj mT))

/-- C1: on raw text whose whole body does not parse but which contains a
json-labeled fenced object, an unlabeled fenced object and a trailing
bare object, all with different content, the strategies are tried in the
fixed order whole-text / labeled fence / unlabeled fence / trailing
object, the first success wins, and coercion returns the record parsed
from the labeled fence's interior. -/
theorem coerce_priority_labeled_first (p0 p1 p2 : String) (mL mU mT : JObj)
    (hvals : valsOK mL = true) (htick : noTickO mL = true) (hp0 : noTickS p0 = true)
    (hLU : jdumps (.obj mL) ≠ jdumps (.obj mU))
    (hUT : jdumps (.obj mU) ≠ jdumps (.obj mT))
    (hLT : jdumps (.obj mL) ≠ jdumps (.obj mT))
    (hwhole : jloads (c1Text p0 mL mU mT p1 p2) = none) :
    extract_json_block (c1Text p0 mL mU mT p1 p2) = jdumps (.obj mL)
      ∧ coerce (c1Text p0 mL mU mT p1 p2) = .ok (.obj mL) := by
  unfold c1Text at hwhole ⊢
  exact ⟨extract_json_block_fenceWrap _ _ _ hp0 hvals htick,
    coerce_fenceWrap _ _ _ hp0 hvals htick hwhole⟩

theorem coerce_priority_witness :
    extract_json_block (c1Text ("x\n") (.cons ("a") (.str ("1")) .nil)
        (.cons ("b") (.str ("2")) .nil) (.cons ("c") (.str ("3")) .nil)
        ("mid\n") ("tail\n"))
      = jdumps (.obj (.cons ("a") (.str ("1")) .nil))
    ∧ coerce (c1Text ("x\n") (.cons ("a") (.str ("1")) .nil)
        (.cons ("b") (.str ("2")) .nil) (.cons ("c") (.str ("3")) .nil)
        ("mid\n") ("tail\n"))
      = .ok (.obj (.cons ("a") (.str ("1")) .nil)) :=
  coerce_priority_labeled_first ("x\n") ("mid\n") ("tail\n")
    (.cons ("a") (.str ("1")) .nil) (.cons ("b") (.str ("2")) .nil)
    (.cons ("c") (.str ("3")) .nil)
    (by decide) (by decide) (by decide) (by decide) (by decide) (by decide) rfl

/-! ### C6: prompt-builder determinism -/

/-- C6: `build_prompt` is deterministic — two invocations on identical
JD/CV texts produce identical `(system, user)` prompt pairs; the output
is a pure function of the two texts and the fixed template, with no
timestamps, random identifiers or environment-dependent content. -/
theorem build_prompt_deterministic (jd cv jd' cv' : String)
    (hjd : jd = jd') (hcv : cv = cv') :
    build_prompt jd cv = build_prompt jd' cv' := by
  subst hjd; subst hcv; rfl

theorem build_prompt_deterministic_witness :
    build_prompt ("jd text") ("cv text") = build_prompt ("jd text") ("cv text") :=
  build_prompt_deterministic ("jd text") ("cv text") ("jd text") ("cv text") rfl rfl

/-! ### C7: no defensive emptiness check in the prompt builder -/

/-- C7 counterexample: invoked on two empty texts, `build_prompt` does not
fail with any `EmptyInputError` — it returns a `PromptPair` whose user
prompt is the bare template around the empty slots (and whose system
prompt is the fixed template), so the claimed defensive check does not
exist in the code. -/
theorem build_prompt_empty_counterexample :
    (build_prompt ("") ("")).user
        = ("Job Description:\n\n\nCandidate CV:\n\n\nNow, produce the prep brief as specified in JSON format.")
      ∧ (build_prompt ("") ("")).system = systemPromptText :=
  ⟨rfl, rfl⟩

/-- C7 amended: `build_prompt` performs no input validation at all; on
every pair of texts — the empty ones included — it produces a
`PromptPair`, and both components are nonempty strings, so even the
caller's post-hoc `assert` (cli.py line 77) can never fire. -/
theorem build_prompt_total_nonempty (jd cv : String) :
    (build_prompt jd cv).system.length ≠ 0 ∧ (build_prompt jd cv).user.length ≠ 0 := by
  constructor
  · simp only [build_prompt]
    decide
  · have h1 : (build_prompt jd cv).user.length
        = ("Job Description:\n").length + jd.length + ("\n\nCandidate CV:\n").length
          + cv.length + ("\n\nNow, produce the prep brief as specified in JSON format.").length := by
      simp only [build_prompt, String.length_append]
    have h2 : ("Job Description:\n").length = 17 := rfl
    omega

/-! ### C5: the text normalizer -/

/-- An input of 99 letters followed by 10 blanks: its raw length passes
the threshold but its trimmed length does not. -/
def c5bad : String := String.mk (List.replicate 99 'a' ++ List.replicate 10 ' ')

/-- C5 counterexample: in the CLI's literal-JD-text path no stripping
happens — the validator accepts this input (raw length 109) and returns
it untrimmed, although its trimmed length is 99, below the threshold, so
the claimed strip-then-validate contract fails on the JD text path. -/
theorem normalizer_counterexample :
    checkJdText c5bad = .ok c5bad
      ∧ (pyStrip c5bad).length = 99 ∧ c5bad.length = 109
      ∧ pyStrip c5bad ≠ c5bad :=
  ⟨rfl, rfl, rfl, by decide⟩

/-- C5 amended: the CV path behaves as claimed — the text is stripped and
rejected exactly when the trimmed length is below 100, the trimmed copy
being returned otherwise; the literal JD-text path, however, applies no
stripping: it rejects exactly when the raw length is below 100 and
returns the raw text unchanged. -/
theorem normalizer_amended :
    (∀ raw, checkCvText raw
        = if (pyStrip raw).length < 100 then .error .cvTooShort else .ok (pyStrip raw))
      ∧ (∀ jd, checkJdText jd
        = if jd.length < 100 then .error .jdTooShort else .ok jd) := by
  constructor
  · intro raw
    unfold checkCvText
    by_cases h : (pyStrip raw).length < 100
    · rw [if_pos (Or.inr h), if_pos h]
    · have hne : ¬(pyStrip raw = ("") ∨ (pyStrip raw).length < 100) := by
        rintro (he | hl)
        · exact h (by rw [he]; decide)
        · exact h hl
      rw [if_neg hne, if_neg h]
  · intro jd
    unfold checkJdText
    by_cases h : jd.length < 100
    · rw [if_pos (Or.inr h), if_pos h]
    · have hne : ¬(jd = ("") ∨ jd.length < 100) := by
        rintro (he | hl)
        · exact h (by rw [he]; decide)
        · exact h hl
      rw [if_neg hne, if_neg h]

/-! ### C4: post-parse mapping validation -/

/-- C4: whenever coercion successfully parses a JSON value that is not a
mapping (a list, string, number, boolean or null), the pipeline rejects
it — `generate_prep_brief` raises instead of treating the value as a
BriefRecord. -/
theorem coerce_non_mapping_rejected (text : String) (v : JValue)
    (hok : coerce text = .ok v) (hobj : isObjV v = false) :
    coerceRecord text = .error .notMapping := by
  unfold coerceRecord
  rw [hok]
  simp [hobj]

theorem coerce_non_mapping_rejected_witness :
    coerceRecord ("[1, 2]") = .error .notMapping :=
  coerce_non_mapping_rejected ("[1, 2]")
    (.arr (.cons (.num ("1")) (.cons (.num ("2")) .nil))) rfl rfl

/-! ### C3: the terminal failure of the coercer -/

/-- C3 counterexample: on raw text whose only candidate span (the trailing
brace span) is unparseable, coercion does fail — but the error carries
the extracted span, not the original raw text, so the claimed payload is
wrong for inputs where a strategy matched and parsing then failed. -/
theorem coerce_error_payload_counterexample :
    coerce ("junk \x7bbad\x7d") = .error (.malformed ("\x7bbad\x7d"))
      ∧ ("\x7bbad\x7d") ≠ ("junk \x7bbad\x7d") :=
  ⟨rfl, by decide⟩

/-- C3 amended: whenever the whole text fails to parse and the extracted
candidate also fails to parse, coercion fails with the malformed-response
error — never returning a partial record — and the error carries the
extracted candidate: the trimmed original raw text when no strategy
matched, the matched span otherwise. -/
theorem coerce_exhausted_error (text : String)
    (h1 : jloads text = none) (h2 : jloads (extract_json_block text) = none) :
    coerce text = .error (.malformed (extract_json_block text)) := by
  simp only [coerce, h1, h2]

theorem coerce_exhausted_error_witness :
    coerce ("I cannot comply.") = .error (.malformed (extract_json_block ("I cannot comply."))) :=
  coerce_exhausted_error ("I cannot comply.") rfl rfl

/-! ### C10: total fallthrough of the extraction cascade -/

/-- C10: `extract_json_block` is total by construction; when the three
searches (labeled fence, unlabeled fence, trailing object) all fail to
match, it returns the stripped input itself, and the coercer's terminal
failure is then a parse error whose document is exactly that trimmed
original text — the mechanism by which the raw text reaches the
diagnostics. -/
theorem extract_fallthrough (text : String)
    (h1 : searchLabeled text.data = none) (h2 : searchUnlabeled text.data = none)
    (h3 : searchTrailing text.data = none) :
    extract_json_block text = pyStrip text
      ∧ (jloads text = none → jloads (pyStrip text) = none →
          coerce text = .error (.malformed (pyStrip text))) := by
  have he : extract_json_block text = pyStrip text := by
    unfold extract_json_block
    rw [h1, h2, h3]
  refine ⟨he, fun h4 h5 => ?_⟩
  simp only [coerce, h4, he, h5]

/-! ### C8 and C9: the renderer -/

/-- Values found in a mapping with schema-shaped values are themselves
schema-shaped. -/
theorem valsOK_find : ∀ (data : JObj) (k : String) (v : JValue),
    valsOK data = true → JObj.find data k = some v → valOK v = true
  | .nil, k, v, _, hf => by simp [JObj.find] at hf
  | .cons k' v' o, k, v, h, hf => by
    have h' : valOK v' = true ∧ valsOK o = true := by
      simpa [valsOK, Bool.and_eq_true] using h
    by_cases he : k' = k
    · simp only [JObj.find, if_pos he] at hf
      cases hf
      exact h'.1
    · simp only [JObj.find, if_neg he] at hf
      exact valsOK_find o k v h'.2 hf

/-- A list of strings joins without error. -/
theorem allStrA_strItems : ∀ (a : JArr), allStrA a = true → (strItems a).isSome = true
  | .nil, _ => rfl
  | .cons v a, h => by
    cases v with
    | str s =>
      have ih := allStrA_strItems a (by simpa [allStrA] using h)
      simp [strItems, Option.isSome_map, ih]
    | null => simp [allStrA] at h
    | boolean b => simp [allStrA] at h
    | num lex => simp [allStrA] at h
    | arr a2 => simp [allStrA] at h
    | obj o => simp [allStrA] at h

/-- The bullets helper never raises on schema-shaped values. -/
theorem bullets_ok (data : JObj) (k : String) (hv : valsOK data = true) :
    exOk (bullets data k) = true := by
  unfold bullets
  cases hf : JObj.find data k with
  | none => simp [hf, truthy, exOk]
  | some v =>
    have hok := valsOK_find data k v hv hf
    cases v with
    | str s =>
      by_cases ht : truthy (JValue.str s) = true
      · simp [hf, ht, exOk]
      · simp [hf, Bool.of_not_eq_true ht, exOk]
    | arr a =>
      by_cases ht : truthy (JValue.arr a) = true
      · simp [hf, ht, exOk]
      · simp [hf, Bool.of_not_eq_true ht, exOk]
    | null => simp [valOK] at hok
    | boolean b => simp [valOK] at hok
    | num lex => simp [valOK] at hok
    | obj o => simp [valOK] at hok

/-- The role-summary block never raises on schema-shaped values. -/
theorem renderRoleSummary_ok (data : JObj) (hv : valsOK data = true) :
    exOk (renderRoleSummary data) = true := by
  unfold renderRoleSummary
  cases hf : JObj.find data ("role_summary") with
  | none => simp [exOk]
  | some v =>
    have hok := valsOK_find data _ v hv hf
    cases v with
    | str s => simp [exOk]
    | arr a =>
      have hs := allStrA_strItems a (by simpa [valOK] using hok)
      cases hi : strItems a with
      | none => rw [hi] at hs; simp at hs
      | some l => simp [hi, exOk]
    | null => simp [valOK] at hok
    | boolean b => simp [valOK] at hok
    | num lex => simp [valOK] at hok
    | obj o => simp [valOK] at hok

/-- A bullet section never raises on schema-shaped values. -/
theorem renderSection_ok (data : JObj) (sec : String × String) (hv : valsOK data = true) :
    exOk (renderSection data sec) = true := by
  unfold renderSection
  have hb := bullets_ok data sec.1 hv
  cases hbe : bullets data sec.1 with
  | ok b =>
    by_cases ht : truthy (match JObj.find data sec.1 with
      | some v => v
      | none => JValue.null) = true
    · simp [ht, hbe, exOk]
    · simp [Bool.of_not_eq_true ht, exOk]
  | error e => rw [hbe] at hb; simp [exOk] at hb

/-- The section loop never raises on schema-shaped values. -/
theorem renderSectionsList_ok (data : JObj) (hv : valsOK data = true) :
    ∀ (l : List (String × String)), exOk (renderSectionsList data l) = true
  | [] => rfl
  | sec :: rest => by
    have h1 := renderSection_ok data sec hv
    have h2 := renderSectionsList_ok data hv rest
    unfold renderSectionsList
    cases hs : renderSection data sec with
    | ok a =>
      cases hr : renderSectionsList data rest with
      | ok b => simp [exOk]
      | error e => rw [hr] at h2; simp [exOk] at h2
    | error e => rw [hs] at h1; simp [exOk] at h1

/-- C8 counterexample: `render_markdown` is not total over mappings — on
the mapping whose `top_required_skills` value is the number 1 (a truthy
non-iterable), the code raises `TypeError` when it iterates the value, so
rendering fails instead of returning a document. -/
theorem render_total_counterexample :
    render_markdown (.cons ("top_required_skills") (.num ("1")) .nil)
      = .error .notIterable := rfl

/-- C8 amended: `render_markdown` is pure and total over every mapping
whose values are schema-shaped (each a string or a list of strings): on
all such mappings — whatever the keys — it returns a rendered document
and never raises. -/
theorem render_total_on_schema (data : JObj) (h : valsOK data = true) :
    exOk (render_markdown data) = true := by
  unfold render_markdown renderMd
  have h1 := renderRoleSummary_ok data h
  have h2 := renderSectionsList_ok data h sectionTitles
  cases hr : renderRoleSummary data with
  | ok l1 =>
    cases hs : renderSectionsList data sectionTitles with
    | ok l2 => simp [exOk]
    | error e => rw [hs] at h2; simp [exOk] at h2
  | error e => rw [hr] at h1; simp [exOk] at h1

theorem render_total_on_schema_witness :
    exOk (render_markdown (.cons ("role_summary")
      (.str ("Backend role focused on distributed systems."))
      (.cons ("top_required_skills")
        (.arr (.cons (.str ("Go")) (.cons (.str ("Kubernetes")) .nil))) .nil))) = true :=
  render_total_on_schema _ rfl

/-- C9 counterexample: a mapping in which `role_summary` is present with
an empty-string value still gets a `## Role Summary` header — the code
tests `"role_summary" in data`, not truthiness, so an empty value is not
skipped for this key. -/
theorem render_empty_section_counterexample :
    render_markdown (.cons ("role_summary") (.str ("")) .nil)
        = .ok ("# Interview Prep Brief\n\n## Role Summary\n")
      ∧ containsSub ("## Role Summary").data
          ("# Interview Prep Brief\n\n## Role Summary\n").data = true :=
  ⟨rfl, rfl⟩

/-- C9 amended: each of the seven bullet sections is skipped — no header,
no placeholder — whenever its key is absent or its value is falsy (empty
string or empty sequence in particular); the `role_summary` section is
skipped when its key is absent, but is emitted whenever the key is
present, even with an empty value. -/
theorem render_skips_empty_sections (data : JObj) :
    (∀ sec, sec ∈ sectionTitles →
      (JObj.find data sec.1 = none
          ∨ ∃ v, JObj.find data sec.1 = some v ∧ truthy v = false) →
      renderSection data sec = .ok [])
    ∧ (JObj.find data ("role_summary") = none → renderRoleSummary data = .ok []) := by
  constructor
  · intro sec _ h
    unfold renderSection
    rcases h with hn | ⟨v, hf, ht⟩
    · simp [hn, truthy]
    · simp [hf, ht]
  · intro hn
    unfold renderRoleSummary
    simp [hn]

theorem render_skips_empty_sections_witness :
    renderSection (.cons ("top_required_skills") (.str ("")) .nil)
        (("top_required_skills"), ("Top Required Skills")) = .ok []
      ∧ renderRoleSummary JObj.nil = .ok [] :=
  ⟨(render_skips_empty_sections (.cons ("top_required_skills") (.str ("")) .nil)).1
      ((("top_required_skills"), ("Top Required Skills")))
      (by simp [sectionTitles])
      (Or.inr ⟨.str (""), rfl, rfl⟩),
   (render_skips_empty_sections JObj.nil).2 rfl⟩

theorem extract_fallthrough_witness :
    extract_json_block ("  I cannot comply.  ") = pyStrip ("  I cannot comply.  ")
      ∧ coerce ("  I cannot comply.  ") = .error (.malformed (pyStrip ("  I cannot comply.  "))) :=
  ⟨(extract_fallthrough ("  I cannot comply.  ") rfl rfl rfl).1,
   (extract_fallthrough ("  I cannot comply.  ") rfl rfl rfl).2 rfl rfl⟩

end Brief
